import Mathlib

/-!
Shallow embedding of the pleasure_holidays backend business logic.

The definitions below are translated from the JavaScript sources:
  - src/backend/models/Package.js   (Package schema, isAvailable, updateAvailability,
    getSeasonalPrice)
  - src/backend/models/Booking.js   (Booking schema, totalTravelers, calculateTotal,
    approve, addReview)
  - src/backend/routes/bookings.js  (POST /api/bookings, GET /api/bookings,
    payment verify, approve, review handlers)
  - src/backend/routes/packages.js  (POST /api/packages/:id/approve)
  - the auth register handler and the Review model (helpful votes / reports).

Money amounts are modelled as rationals (JS numbers used exactly on these
code paths), Mongo ObjectIds as naturals, and dates as integers.  Each route
handler is a pure function from the fetched document and request data to a
pair of the HTTP outcome and the resulting stored document (the second
component is the document as left in the store: unchanged when the handler
returns before saving).
-/

namespace PH

/-- Mongo ObjectId, modelled as a natural number. -/
abbrev UserId := Nat

/-- An HTTP error response: status code plus envelope message. -/
structure HErr where
  status : Nat
  message : String
deriving Repr, DecidableEq

/-- travelDetails.numberOfTravelers in the Booking schema. -/
structure Travelers where
  adults : Nat
  children : Nat
  infants : Nat
deriving Repr, DecidableEq

/-- Total traveler count, as computed in the create-booking handler and the
totalTravelers virtual: adults + children + infants. -/
def Travelers.total (t : Travelers) : Nat :=
  t.adults + t.children + t.infants

/-- One seasonalPricing entry of the Package schema. -/
structure SeasonalEntry where
  multiplier : ℚ
  startDate : Int
  endDate : Int
deriving Repr, DecidableEq

/-- Package.pricing subdocument (the fields the verified routes read). -/
structure PkgPricing where
  basePrice : ℚ
  seasonalPricing : List SeasonalEntry
deriving Repr, DecidableEq

/-- Package.availability subdocument. -/
structure Availability where
  totalSlots : Nat
  bookedSlots : Nat
  isActive : Bool
deriving Repr, DecidableEq

/-- The Package document (fields the verified routes read or write). -/
structure Package where
  pricing : PkgPricing
  availability : Availability
  isApproved : Bool
  approvedBy : Option UserId
  approvedAt : Option Int
deriving Repr, DecidableEq

/-- Package.js isAvailable: isActive && isApproved && bookedSlots < totalSlots. -/
def Package.isAvailable (p : Package) : Bool :=
  p.availability.isActive && p.isApproved &&
    decide (p.availability.bookedSlots < p.availability.totalSlots)

/-- Package.js updateAvailability: overwrite bookedSlots and save. -/
def Package.updateAvailability (p : Package) (bookedSlots : Nat) : Package :=
  { p with availability := { p.availability with bookedSlots := bookedSlots } }

/-- Package.js getSeasonalPrice: Array.find over seasonalPricing for an entry
whose closed date range contains the date; basePrice times its multiplier on a
hit, plain basePrice otherwise. -/
def Package.getSeasonalPrice (p : Package) (date : Int) : ℚ :=
  match p.pricing.seasonalPricing.find?
      (fun sp => decide (sp.startDate ≤ date ∧ date ≤ sp.endDate)) with
  | some sp => p.pricing.basePrice * sp.multiplier
  | none => p.pricing.basePrice

/-- payment.status enum of the Booking schema. -/
inductive PaymentStatus
  | pending | processing | completed | failed | refunded
deriving Repr, DecidableEq

/-- Booking status enum. -/
inductive BookingStatus
  | pending | confirmed | approved | rejected | cancelled | completed
deriving Repr, DecidableEq

/-- Booking.pricing snapshot. -/
structure BkPricing where
  basePrice : ℚ
  discount : ℚ
  taxes : ℚ
  totalAmount : ℚ
deriving Repr, DecidableEq

/-- Booking.payment subdocument (fields the verified routes touch). -/
structure Payment where
  status : PaymentStatus
  razorpayOrderId : Option String
  razorpayPaymentId : Option String
  paidAt : Option Int
deriving Repr, DecidableEq

/-- Booking.approval subdocument (fields the approve route touches). -/
structure Approval where
  approvedBy : Option UserId
  approvedAt : Option Int
deriving Repr, DecidableEq

/-- An embedded review in Booking.reviews. -/
structure BkReview where
  reviewer : UserId
  rating : Nat
  comment : String
deriving Repr, DecidableEq

/-- The Booking document (fields the verified routes read or write). -/
structure Booking where
  customer : UserId
  agent : Option UserId
  travelers : Travelers
  pricing : BkPricing
  payment : Payment
  status : BookingStatus
  approval : Approval
  reviews : List BkReview
  createdAt : Int
deriving Repr, DecidableEq

/-- totalTravelers virtual of Booking.js. -/
def Booking.totalTravelers (b : Booking) : Nat :=
  b.travelers.adults + b.travelers.children + b.travelers.infants

/-- Booking.js calculateTotal: basePrice times totalTravelers, minus the
percentage discount of that amount, plus the stored taxes. -/
def Booking.calculateTotal (b : Booking) : ℚ :=
  let baseAmount := b.pricing.basePrice * (b.totalTravelers : ℚ)
  let discountAmount := (baseAmount * b.pricing.discount) / 100
  baseAmount - discountAmount + b.pricing.taxes

/-- POST /api/bookings handler (bookings.js lines 21-88): validate the package
exists and is available, compute the pricing snapshot, create the booking in
pending status with razorpay pending payment, and bump bookedSlots by the
traveler count.  Returns the created booking and the updated package. -/
def createBooking (uid : UserId) (pkg? : Option Package) (td : Travelers)
    (now : Int) : Except HErr (Booking × Package) :=
  match pkg? with
  | none => .error ⟨404, "Package not found"⟩
  | some pkg =>
    if !pkg.isAvailable then
      .error ⟨400, "Package is not available for booking"⟩
    else
      let totalTravelers := td.total
      let basePrice := pkg.pricing.basePrice * (totalTravelers : ℚ)
      let discount : ℚ := 0
      let taxes := basePrice * (18 / 100 : ℚ)
      let totalAmount := basePrice - discount + taxes
      let booking : Booking :=
        { customer := uid
          agent := none
          travelers := td
          pricing := ⟨basePrice, discount, taxes, totalAmount⟩
          payment := ⟨.pending, none, none, none⟩
          status := .pending
          approval := ⟨none, none⟩
          reviews := []
          createdAt := now }
      .ok (booking, pkg.updateAvailability (pkg.availability.bookedSlots + totalTravelers))

/-- The package state after one create-booking call: a failed call leaves the
package untouched, a successful one installs the updated package. -/
def bookStep (p : Package) (r : UserId × Travelers) : Package :=
  match createBooking r.1 (some p) r.2 0 with
  | .ok (_, p2) => p2
  | .error _ => p

/-- The package state left by a sequence of sequentially executed
create-booking calls. -/
def bookSeq (pkg : Package) (reqs : List (UserId × Travelers)) : Package :=
  reqs.foldl bookStep pkg

/-- POST /api/bookings/:id/payment/verify handler (bookings.js lines 226-267).
The HMAC itself lives in an external crypto library, so it is passed in as a
function from (secret, text) to a hex digest.  The handler rebuilds the text
as orderId | paymentId, recomputes the digest with the server-held secret, and
rejects on mismatch; on match it marks the payment completed, records the
gateway payment id and paidAt, and confirms the booking.  Second component:
the booking as left in the store. -/
def verifyPayment (hmacSha256Hex : String → String → String) (secret : String)
    (b? : Option Booking) (orderId paymentId sig : String) (now : Int) :
    Except HErr Booking × Option Booking :=
  match b? with
  | none => (.error ⟨404, "Booking not found"⟩, none)
  | some b =>
    let text := orderId ++ "|" ++ paymentId
    let signature := hmacSha256Hex secret text
    if signature ≠ sig then
      (.error ⟨400, "Invalid payment signature"⟩, some b)
    else
      let b2 : Booking :=
        { b with
          payment := { b.payment with
                        status := .completed
                        razorpayPaymentId := some paymentId
                        paidAt := some now }
          status := .confirmed }
      (.ok b2, some b2)

/-- POST /api/bookings/:id/approve handler (bookings.js lines 272-298) plus
Booking.js approve: reject a missing booking, reject one already approved, and
otherwise set the status and approval metadata. -/
def approveBooking (b? : Option Booking) (adminId : UserId) (now : Int) :
    Except HErr Booking × Option Booking :=
  match b? with
  | none => (.error ⟨404, "Booking not found"⟩, none)
  | some b =>
    if b.status = .approved then
      (.error ⟨400, "Booking is already approved"⟩, some b)
    else
      let b2 : Booking :=
        { b with status := .approved, approval := ⟨some adminId, some now⟩ }
      (.ok b2, some b2)

/-- POST /api/packages/:id/approve handler (packages.js lines 201-230): reject
a missing package, reject one whose isApproved flag is already set, and
otherwise set the flag and approver metadata. -/
def approvePackage (p? : Option Package) (adminId : UserId) (now : Int) :
    Except HErr Package × Option Package :=
  match p? with
  | none => (.error ⟨404, "Package not found"⟩, none)
  | some p =>
    if p.isApproved then
      (.error ⟨400, "Package is already approved"⟩, some p)
    else
      let p2 : Package :=
        { p with isApproved := true, approvedBy := some adminId, approvedAt := some now }
      (.ok p2, some p2)

/-- POST /api/bookings/:id/review handler (bookings.js lines 403-438) plus
Booking.js addReview: 404 on a missing booking, 403 when the requester is not
the customer of the booking, 400 when the booking is not completed, and
otherwise push the review onto the embedded list. -/
def addReviewRoute (b? : Option Booking) (uid : UserId) (rating : Nat)
    (comment : String) : Except HErr Booking × Option Booking :=
  match b? with
  | none => (.error ⟨404, "Booking not found"⟩, none)
  | some b =>
    if b.customer ≠ uid then
      (.error ⟨403, "You can only review your own bookings"⟩, some b)
    else if b.status ≠ .completed then
      (.error ⟨400, "You can only review completed bookings"⟩, some b)
    else
      let b2 : Booking := { b with reviews := b.reviews ++ [⟨uid, rating, comment⟩] }
      (.ok b2, some b2)

/-! ### Identity: register -/

/-- User roles. -/
inductive Role
  | customer | agent | admin
deriving Repr, DecidableEq

/-- The User document (fields the register handler reads or writes).  The
password field holds whatever User.create persisted. -/
structure User where
  id : UserId
  firstName : String
  lastName : String
  email : String
  password : String
  phone : String
  role : Role
deriving Repr, DecidableEq

/-- The public user projection returned by register: id, names, email, role
and phone only — the structure has no password field at all. -/
structure UserProjection where
  id : UserId
  firstName : String
  lastName : String
  email : String
  role : Role
  phone : String
deriving Repr, DecidableEq

/-- Modelled from the spec: the User model file is not among the sources, and
the spec states that registration stores a hashed password, never the
plaintext (a pre-save hashing hook on the model).  User.create therefore
persists the hash of the supplied password, computed by the hashing function
passed in for the external hashing library. -/
def userCreate (hash : String → String) (newId : UserId)
    (firstName lastName email password phone : String) (role : Role) : User :=
  { id := newId
    firstName := firstName
    lastName := lastName
    email := email
    password := hash password
    phone := phone
    role := role }

/-- POST /api/auth/register handler: reject a duplicate email with a 400
response and no write; otherwise create one user via User.create, sign a
token for its id, and answer with the token and the public projection.
Second component: the users collection as left in the store. -/
def register (hash : String → String) (genToken : UserId → String)
    (users : List User) (newId : UserId)
    (firstName lastName email password phone : String) (role : Role) :
    Except HErr (UserProjection × String) × List User :=
  match users.find? (fun u => decide (u.email = email)) with
  | some _ => (.error ⟨400, "User with this email already exists"⟩, users)
  | none =>
    let u := userCreate hash newId firstName lastName email password phone role
    (.ok (⟨u.id, u.firstName, u.lastName, u.email, u.role, u.phone⟩, genToken u.id),
      users ++ [u])

/-! ### Review model: helpful votes and reports -/

/-- One entry of the helpful-votes list of the Review model. -/
structure HelpfulVote where
  user : UserId
  helpful : Bool
deriving Repr, DecidableEq

/-- One entry of the reported list of the Review model. -/
structure Report where
  user : UserId
  reason : String
  reportedAt : Int
deriving Repr, DecidableEq

/-- The Review document (the two lists the voting methods touch). -/
structure ReviewDoc where
  helpful : List HelpfulVote
  reported : List Report
deriving Repr, DecidableEq

/-- Overwrite the helpful flag of the first vote by the given user, leaving
the rest of the list alone — the effect of mutating the element Array.find
returned. -/
def setFirstVote : List HelpfulVote → UserId → Bool → List HelpfulVote
  | [], _, _ => []
  | v :: vs, uid, isHelpful =>
    if v.user = uid then { v with helpful := isHelpful } :: vs
    else v :: setFirstVote vs uid isHelpful

/-- Review model addHelpfulVote: if the user already has a vote, overwrite its
helpful flag in place; otherwise push a new vote. -/
def ReviewDoc.addHelpfulVote (r : ReviewDoc) (uid : UserId) (isHelpful : Bool) :
    ReviewDoc :=
  match r.helpful.find? (fun h => decide (h.user = uid)) with
  | some _ => { r with helpful := setFirstVote r.helpful uid isHelpful }
  | none => { r with helpful := r.helpful ++ [⟨uid, isHelpful⟩] }

/-- Review model reportReview: push a report only when the user has none yet;
a repeat report leaves the list unchanged. -/
def ReviewDoc.reportReview (r : ReviewDoc) (uid : UserId) (reason : String)
    (now : Int) : ReviewDoc :=
  match r.reported.find? (fun x => decide (x.user = uid)) with
  | some _ => r
  | none => { r with reported := r.reported ++ [(⟨uid, reason, now⟩ : Report)] }

/-- One call against a review: a helpful vote or a report. -/
inductive ReviewOp
  | vote (uid : UserId) (isHelpful : Bool)
  | report (uid : UserId) (reason : String) (now : Int)

/-- Apply one vote-or-report call. -/
def applyReviewOp (r : ReviewDoc) : ReviewOp → ReviewDoc
  | .vote uid isHelpful => r.addHelpfulVote uid isHelpful
  | .report uid reason now => r.reportReview uid reason now

/-- Apply a sequence of vote-or-report calls in order. -/
def runReviewOps (r : ReviewDoc) (ops : List ReviewOp) : ReviewDoc :=
  ops.foldl applyReviewOp r

/-! ### GET /api/bookings -/

/-- The query object GET /api/bookings builds (bookings.js lines 96-107):
customer scoped to their own id, agent scoped to bookings where they are the
agent, admin unscoped; plus the optional status filter. -/
def bookingMatches (role : Role) (uid : UserId) (status? : Option BookingStatus)
    (b : Booking) : Bool :=
  (match role with
    | .customer => decide (b.customer = uid)
    | .agent => decide (b.agent = some uid)
    | .admin => true) &&
  (match status? with
    | some s => decide (b.status = s)
    | none => true)

/-- GET /api/bookings handler (bookings.js lines 93-130): filter by the query,
sort by createdAt descending, then apply offset pagination skip and limit. -/
def getBookings (db : List Booking) (role : Role) (uid : UserId)
    (status? : Option BookingStatus) (page limit : Nat) : List Booking :=
  ((db.filter (bookingMatches role uid status?)).mergeSort
      (fun a b => decide (b.createdAt ≤ a.createdAt))
    |>.drop ((page - 1) * limit)) |>.take limit

/-! ### Concrete sample documents used by witness theorems -/

/-- A live package: base price 1000, 10 slots, none booked, active, approved. -/
def samplePkg : Package :=
  { pricing := ⟨1000, []⟩
    availability := ⟨10, 0, true⟩
    isApproved := true
    approvedBy := none
    approvedAt := none }

/-- A package with one free slot, used to exhibit slot overshoot. -/
def pkgOneSlot : Package :=
  { pricing := ⟨500, []⟩
    availability := ⟨1, 0, true⟩
    isApproved := true
    approvedBy := none
    approvedAt := none }

/-- A zero-priced package (basePrice has schema minimum 0). -/
def pkgZero : Package :=
  { pricing := ⟨0, []⟩
    availability := ⟨5, 0, true⟩
    isApproved := true
    approvedBy := none
    approvedAt := none }

/-- The booking created against pkgZero for two adults. -/
def bZero : Booking :=
  { customer := 0
    agent := none
    travelers := ⟨2, 0, 0⟩
    pricing := ⟨0, 0, 0, 0⟩
    payment := ⟨.pending, none, none, none⟩
    status := .pending
    approval := ⟨none, none⟩
    reviews := []
    createdAt := 0 }

/-- sampleBooking after successful verification of payment pid at time 3. -/
def sampleBookingPaid : Booking :=
  { customer := 5
    agent := none
    travelers := ⟨1, 0, 0⟩
    pricing := ⟨1000, 0, 180, 1180⟩
    payment := ⟨.completed, none, some "pid", some 3⟩
    status := .confirmed
    approval := ⟨none, none⟩
    reviews := []
    createdAt := 0 }

/-- A pending booking owned by customer 5. -/
def sampleBooking : Booking :=
  { customer := 5
    agent := none
    travelers := ⟨1, 0, 0⟩
    pricing := ⟨1000, 0, 180, 1180⟩
    payment := ⟨.pending, none, none, none⟩
    status := .pending
    approval := ⟨none, none⟩
    reviews := []
    createdAt := 0 }

/-- A package with two overlapping seasonal entries around date 10. -/
def pkgSeasonal : Package :=
  { pricing := ⟨1000, [⟨2, 5, 15⟩, ⟨3, 0, 20⟩]⟩
    availability := ⟨10, 0, true⟩
    isApproved := true
    approvedBy := none
    approvedAt := none }

/-- A package with three free slots, used by the slot-bound witness. -/
def pkgThree : Package :=
  { pricing := ⟨100, []⟩
    availability := ⟨3, 0, true⟩
    isApproved := true
    approvedBy := none
    approvedAt := none }

/-- A review with one helpful vote by user 1 and one report by user 2. -/
def reviewSample : ReviewDoc :=
  { helpful := [⟨1, true⟩]
    reported := [⟨2, "spam", 0⟩] }

end PH

namespace PH

/-! ### Theorems -/

/-- On an available package the create-booking handler takes its success
branch, producing exactly this booking and this slot update. -/
theorem createBooking_ok (uid : UserId) (pkg : Package) (td : Travelers)
    (now : Int) (hav : pkg.isAvailable = true) :
    createBooking uid (some pkg) td now =
      .ok ({ customer := uid
             agent := none
             travelers := td
             pricing :=
               ⟨pkg.pricing.basePrice * (td.total : ℚ), 0,
                pkg.pricing.basePrice * (td.total : ℚ) * (18 / 100 : ℚ),
                pkg.pricing.basePrice * (td.total : ℚ) - 0 +
                  pkg.pricing.basePrice * (td.total : ℚ) * (18 / 100 : ℚ)⟩
             payment := ⟨.pending, none, none, none⟩
             status := .pending
             approval := ⟨none, none⟩
             reviews := []
             createdAt := now },
           pkg.updateAvailability (pkg.availability.bookedSlots + td.total)) := by
  simp only [createBooking, hav, Bool.not_true, Bool.false_eq_true, if_false]

/-- C1: a successful create-booking on an available package with adults at
least 1 stores the snapshot basePrice = package basePrice times the traveler
count, discount 0, taxes 18 percent of basePrice, and totalAmount =
basePrice - discount + taxes. -/
theorem C1_createBooking_pricing (uid : UserId) (pkg : Package) (td : Travelers)
    (now : Int) (hav : pkg.isAvailable = true) (_had : 1 ≤ td.adults) :
    ∃ b p2, createBooking uid (some pkg) td now = .ok (b, p2) ∧
      b.pricing.basePrice = pkg.pricing.basePrice * (td.total : ℚ) ∧
      b.pricing.discount = 0 ∧
      b.pricing.taxes = (18 / 100 : ℚ) * b.pricing.basePrice ∧
      b.pricing.totalAmount =
        b.pricing.basePrice - b.pricing.discount + b.pricing.taxes := by
  rw [createBooking_ok uid pkg td now hav]
  exact ⟨_, _, rfl, rfl, rfl, mul_comm _ _, rfl⟩

/-- C1 witness: 2 adults and 1 child at base price 1000 give a snapshot of
basePrice 3000, discount 0, taxes 540, totalAmount 3540. -/
theorem C1_witness :
    samplePkg.isAvailable = true ∧ 1 ≤ (2 : Nat) ∧
    (createBooking 7 (some samplePkg) ⟨2, 1, 0⟩ 0).map
        (fun x => (x.1.pricing.basePrice, x.1.pricing.discount,
          x.1.pricing.taxes, x.1.pricing.totalAmount)) =
      .ok (3000, 0, 540, 3540) := by
  obtain ⟨b, p2, heq, h1, h2, h3, h4⟩ :=
    C1_createBooking_pricing 7 samplePkg ⟨2, 1, 0⟩ 0 (by decide) (by decide)
  refine ⟨by decide, by decide, ?_⟩
  rw [heq]
  have hb : b.pricing.basePrice = 3000 := by
    rw [h1]; norm_num [samplePkg, Travelers.total]
  have ht : b.pricing.taxes = 540 := by rw [h3, hb]; norm_num
  have htot : b.pricing.totalAmount = 3540 := by rw [h4, hb, h2, ht]; norm_num
  simp only [Except.map, hb, h2, ht, htot]

/-- C7: approving an already-approved booking, and approving an
already-approved package, both answer 400 and leave the stored document
exactly as it was. -/
theorem C7_reapprove_rejected (b : Booking) (p : Package) (adminId : UserId)
    (now : Int) (hb : b.status = .approved) (hp : p.isApproved = true) :
    approveBooking (some b) adminId now =
      (.error ⟨400, "Booking is already approved"⟩, some b) ∧
    approvePackage (some p) adminId now =
      (.error ⟨400, "Package is already approved"⟩, some p) := by
  constructor
  · simp only [approveBooking]
    rw [if_pos hb]
  · simp only [approvePackage]
    rw [if_pos hp]

/-- C7 witness at a concrete approved booking and approved package. -/
theorem C7_witness :
    approveBooking (some { sampleBooking with status := .approved }) 1 0 =
      (.error ⟨400, "Booking is already approved"⟩,
        some { sampleBooking with status := .approved }) ∧
    approvePackage (some samplePkg) 1 0 =
      (.error ⟨400, "Package is already approved"⟩, some samplePkg) :=
  C7_reapprove_rejected { sampleBooking with status := .approved } samplePkg 1 0
    rfl rfl

/-- C2: payment verification on an existing booking succeeds exactly when the
supplied signature equals the hex HMAC of orderId | paymentId under the
server secret; a match completes the payment, records paidAt and confirms the
booking, and a mismatch answers 400 leaving the booking as it was. -/
theorem C2_verifyPayment (hmacSha256Hex : String → String → String)
    (secret orderId paymentId sig : String) (b : Booking) (now : Int) :
    ((∃ b2, (verifyPayment hmacSha256Hex secret (some b) orderId paymentId sig now).1 =
        .ok b2) ↔ hmacSha256Hex secret (orderId ++ "|" ++ paymentId) = sig) ∧
    (hmacSha256Hex secret (orderId ++ "|" ++ paymentId) = sig →
      ∃ b2, verifyPayment hmacSha256Hex secret (some b) orderId paymentId sig now =
          (.ok b2, some b2) ∧
        b2.payment.status = .completed ∧ b2.payment.paidAt = some now ∧
        b2.status = .confirmed) ∧
    (hmacSha256Hex secret (orderId ++ "|" ++ paymentId) ≠ sig →
      verifyPayment hmacSha256Hex secret (some b) orderId paymentId sig now =
        (.error ⟨400, "Invalid payment signature"⟩, some b)) := by
  by_cases h : hmacSha256Hex secret (orderId ++ "|" ++ paymentId) = sig
  · refine ⟨⟨fun _ => h, fun _ => ?_⟩, fun _ => ?_, fun hc => absurd h hc⟩
    · refine ⟨{ b with
          payment :=
            { b.payment with
                status := .completed
                razorpayPaymentId := some paymentId
                paidAt := some now }
          status := .confirmed }, ?_⟩
      simp [verifyPayment, h]
    · refine ⟨{ b with
          payment :=
            { b.payment with
                status := .completed
                razorpayPaymentId := some paymentId
                paidAt := some now }
          status := .confirmed }, ?_, rfl, rfl, rfl⟩
      simp [verifyPayment, h]
  · refine ⟨⟨fun hex => ?_, fun hc => absurd hc h⟩,
      fun hc => absurd hc h, fun _ => by simp [verifyPayment, h]⟩
    obtain ⟨b2, hb2⟩ := hex
    rw [show (verifyPayment hmacSha256Hex secret (some b) orderId paymentId sig now)
        = (.error ⟨400, "Invalid payment signature"⟩, some b) by
          simp [verifyPayment, h]] at hb2
    exact absurd hb2 (by simp)

/-- C2 witness: with a concrete digest function, a matching signature turns
sampleBooking into its paid and confirmed form. -/
theorem C2_witness :
    verifyPayment (fun s t => String.append s t) "k" (some sampleBooking)
        "oid" "pid" "koid|pid" 3 = (.ok sampleBookingPaid, some sampleBookingPaid) ∧
    sampleBookingPaid.payment.status = .completed ∧
    sampleBookingPaid.payment.paidAt = some 3 ∧
    sampleBookingPaid.status = .confirmed := by
  obtain ⟨b2, heq, h1, h2, h3⟩ :=
    (C2_verifyPayment (fun s t => String.append s t) "k" "oid" "pid" "koid|pid"
      sampleBooking 3).2.1 rfl
  have hval : verifyPayment (fun s t => String.append s t) "k"
      (some sampleBooking) "oid" "pid" "koid|pid" 3 =
        (.ok sampleBookingPaid, some sampleBookingPaid) := by rfl
  rw [hval] at heq
  have hb : sampleBookingPaid = b2 := Except.ok.inj (congrArg Prod.fst heq)
  exact ⟨hval, by rw [hb]; exact h1, by rw [hb]; exact h2, by rw [hb]; exact h3⟩

/-- C4: a review is appended exactly when the booking exists, the requester is
its customer and the status is completed; a foreign requester gets 403 and a
non-completed booking gets 400, the stored booking untouched in both failure
cases. -/
theorem C4_addReview (b : Booking) (uid : UserId) (rating : Nat)
    (comment : String) :
    ((∃ b2, (addReviewRoute (some b) uid rating comment).1 = .ok b2) ↔
        (b.customer = uid ∧ b.status = .completed)) ∧
    (b.customer = uid → b.status = .completed →
      addReviewRoute (some b) uid rating comment =
        (.ok { b with reviews := b.reviews ++ [⟨uid, rating, comment⟩] },
         some { b with reviews := b.reviews ++ [⟨uid, rating, comment⟩] })) ∧
    (b.customer ≠ uid →
      addReviewRoute (some b) uid rating comment =
        (.error ⟨403, "You can only review your own bookings"⟩, some b)) ∧
    (b.customer = uid → b.status ≠ .completed →
      addReviewRoute (some b) uid rating comment =
        (.error ⟨400, "You can only review completed bookings"⟩, some b)) := by
  by_cases hc : b.customer = uid
  · by_cases hs : b.status = BookingStatus.completed
    · refine ⟨⟨fun _ => ⟨hc, hs⟩, fun _ =>
          ⟨{ b with reviews := b.reviews ++ [⟨uid, rating, comment⟩] },
            by simp [addReviewRoute, hc, hs]⟩⟩,
        fun _ _ => by simp [addReviewRoute, hc, hs],
        fun hne => absurd hc hne, fun _ hne => absurd hs hne⟩
    · refine ⟨⟨fun hex => ?_, fun hand => absurd hand.2 hs⟩,
        fun _ h2 => absurd h2 hs, fun hne => absurd hc hne,
        fun _ _ => by simp [addReviewRoute, hc, hs]⟩
      obtain ⟨b2, hb2⟩ := hex
      rw [show (addReviewRoute (some b) uid rating comment)
          = (.error ⟨400, "You can only review completed bookings"⟩, some b) by
            simp [addReviewRoute, hc, hs]] at hb2
      exact absurd hb2 (by simp)
  · refine ⟨⟨fun hex => ?_, fun hand => absurd hand.1 hc⟩,
      fun h1 _ => absurd h1 hc, fun _ => by simp [addReviewRoute, hc],
      fun h1 _ => absurd h1 hc⟩
    obtain ⟨b2, hb2⟩ := hex
    rw [show (addReviewRoute (some b) uid rating comment)
        = (.error ⟨403, "You can only review your own bookings"⟩, some b) by
          simp [addReviewRoute, hc]] at hb2
    exact absurd hb2 (by simp)

/-- C4 witness: the owner of a completed booking adds a review and the review
list grows by exactly that review. -/
theorem C4_witness :
    ({ sampleBooking with status := .completed } : Booking).customer = 5 ∧
    addReviewRoute (some { sampleBooking with status := .completed }) 5 4 "nice" =
      (.ok { { sampleBooking with status := .completed } with
              reviews := sampleBooking.reviews ++ [⟨5, 4, "nice"⟩] },
       some { { sampleBooking with status := .completed } with
              reviews := sampleBooking.reviews ++ [⟨5, 4, "nice"⟩] }) := by
  refine ⟨rfl, ?_⟩
  exact (C4_addReview { sampleBooking with status := .completed } 5 4 "nice").2.1
    rfl rfl

/-- Array.find picks the first index whose test holds: if entry i passes and
every earlier entry fails, find? returns entry i. -/
theorem find?_of_first {α : Type} (p : α → Bool) :
    ∀ (l : List α) (i : Nat) (hi : i < l.length),
      p (l.get ⟨i, hi⟩) = true →
      (∀ j (hj : j < i), p (l.get ⟨j, Nat.lt_trans hj hi⟩) = false) →
      l.find? p = some (l.get ⟨i, hi⟩)
  | a :: _, 0, _, hp, _ => List.find?_cons_of_pos _ hp
  | a :: l, i + 1, hi, hp, hprev => by
      have ha : p a = false := hprev 0 (Nat.succ_pos i)
      have ih := find?_of_first p l i (Nat.lt_of_succ_lt_succ hi) hp
        (fun j hj => hprev (j + 1) (Nat.succ_lt_succ hj))
      rw [List.find?_cons_of_neg _ (by simp [ha])]
      exact ih

/-- C5: getSeasonalPrice returns basePrice when no seasonal entry contains the
date, and basePrice times the multiplier of the first entry, in list order,
whose closed range contains the date — the earliest entry wins on overlap. -/
theorem C5_getSeasonalPrice (p : Package) (d : Int) :
    ((∀ sp ∈ p.pricing.seasonalPricing, ¬(sp.startDate ≤ d ∧ d ≤ sp.endDate)) →
      p.getSeasonalPrice d = p.pricing.basePrice) ∧
    (∀ i (hi : i < p.pricing.seasonalPricing.length),
      ((p.pricing.seasonalPricing.get ⟨i, hi⟩).startDate ≤ d ∧
        d ≤ (p.pricing.seasonalPricing.get ⟨i, hi⟩).endDate) →
      (∀ j (hj : j < i),
        ¬((p.pricing.seasonalPricing.get ⟨j, Nat.lt_trans hj hi⟩).startDate ≤ d ∧
          d ≤ (p.pricing.seasonalPricing.get ⟨j, Nat.lt_trans hj hi⟩).endDate)) →
      p.getSeasonalPrice d =
        p.pricing.basePrice * (p.pricing.seasonalPricing.get ⟨i, hi⟩).multiplier) := by
  constructor
  · intro hnone
    have hfind : p.pricing.seasonalPricing.find?
        (fun sp => decide (sp.startDate ≤ d ∧ d ≤ sp.endDate)) = none := by
      rw [List.find?_eq_none]
      intro sp hsp
      simpa using hnone sp hsp
    unfold Package.getSeasonalPrice
    rw [hfind]
  · intro i hi hmatch hprev
    have hfind := find?_of_first
      (fun sp => decide (sp.startDate ≤ d ∧ d ≤ sp.endDate))
      p.pricing.seasonalPricing i hi (by simpa using hmatch)
      (fun j hj => by simpa using hprev j hj)
    unfold Package.getSeasonalPrice
    rw [hfind]

/-- C5 witness: at date 10, both entries of pkgSeasonal contain the date but
the first one (multiplier 2) wins, giving 2000 rather than 3000. -/
theorem C5_witness :
    ((pkgSeasonal.pricing.seasonalPricing.get ⟨0, by decide⟩).startDate ≤ (10 : Int) ∧
      (10 : Int) ≤ (pkgSeasonal.pricing.seasonalPricing.get ⟨0, by decide⟩).endDate) ∧
    ((pkgSeasonal.pricing.seasonalPricing.get ⟨1, by decide⟩).startDate ≤ (10 : Int) ∧
      (10 : Int) ≤ (pkgSeasonal.pricing.seasonalPricing.get ⟨1, by decide⟩).endDate) ∧
    pkgSeasonal.getSeasonalPrice 10 = 2000 := by
  refine ⟨by decide, by decide, ?_⟩
  have h := (C5_getSeasonalPrice pkgSeasonal 10).2 0 (by decide) (by decide)
    (fun j hj => absurd hj (Nat.not_lt_zero j))
  rw [h]
  norm_num [pkgSeasonal]

/-- An available package has a bookedSlots count strictly below totalSlots. -/
theorem isAvailable_lt {p : Package} (h : p.isAvailable = true) :
    p.availability.bookedSlots < p.availability.totalSlots := by
  unfold Package.isAvailable at h
  simp only [Bool.and_eq_true, decide_eq_true_eq] at h
  exact h.2

/-- One booking attempt never changes totalSlots. -/
theorem bookStep_totalSlots (p : Package) (r : UserId × Travelers) :
    (bookStep p r).availability.totalSlots = p.availability.totalSlots := by
  cases hav : p.isAvailable
  · simp [bookStep, createBooking, hav]
  · simp [bookStep, createBooking, hav, Package.updateAvailability]

/-- One booking attempt adds the traveler count to bookedSlots when the
package is available and does nothing otherwise. -/
theorem bookStep_booked (p : Package) (r : UserId × Travelers) :
    (bookStep p r).availability.bookedSlots =
      if p.isAvailable = true then p.availability.bookedSlots + r.2.total
      else p.availability.bookedSlots := by
  cases hav : p.isAvailable
  · simp [bookStep, createBooking, hav]
  · simp [bookStep, createBooking, hav, Package.updateAvailability]

/-- A booking sequence never changes totalSlots. -/
theorem bookSeq_totalSlots :
    ∀ (reqs : List (UserId × Travelers)) (pkg : Package),
      (bookSeq pkg reqs).availability.totalSlots = pkg.availability.totalSlots
  | [], _ => rfl
  | r :: rs, pkg => by
      rw [show bookSeq pkg (r :: rs) = bookSeq (bookStep pkg r) rs from rfl,
        bookSeq_totalSlots rs (bookStep pkg r), bookStep_totalSlots]

/-- Slot-count bound preserved by a booking sequence when every request books
at most T travelers. -/
theorem bookSeq_booked_bound (T : Nat) :
    ∀ (reqs : List (UserId × Travelers)) (pkg : Package),
      (∀ r ∈ reqs, r.2.total ≤ T) →
      pkg.availability.bookedSlots ≤ pkg.availability.totalSlots - 1 + T →
      (bookSeq pkg reqs).availability.bookedSlots ≤
        pkg.availability.totalSlots - 1 + T
  | [], _, _, h => h
  | r :: rs, pkg, hb, h => by
      have hstep : (bookStep pkg r).availability.bookedSlots ≤
          (bookStep pkg r).availability.totalSlots - 1 + T := by
        rw [bookStep_totalSlots, bookStep_booked]
        by_cases hav : pkg.isAvailable = true
        · rw [if_pos hav]
          have hlt := isAvailable_lt hav
          have ht := hb r (List.mem_cons_self r rs)
          omega
        · rw [if_neg hav]; exact h
      have ih := bookSeq_booked_bound T rs (bookStep pkg r)
        (fun x hx => hb x (List.mem_cons_of_mem r hx)) hstep
      rw [bookStep_totalSlots] at ih
      exact ih

/-- With one traveler per booking the classic bound survives. -/
theorem bookSeq_booked_le_total :
    ∀ (reqs : List (UserId × Travelers)) (pkg : Package),
      (∀ r ∈ reqs, r.2.total = 1) →
      pkg.availability.bookedSlots ≤ pkg.availability.totalSlots →
      (bookSeq pkg reqs).availability.bookedSlots ≤ pkg.availability.totalSlots
  | [], _, _, h => h
  | r :: rs, pkg, hb, h => by
      have hstep : (bookStep pkg r).availability.bookedSlots ≤
          (bookStep pkg r).availability.totalSlots := by
        rw [bookStep_totalSlots, bookStep_booked]
        by_cases hav : pkg.isAvailable = true
        · rw [if_pos hav, hb r (List.mem_cons_self r rs)]
          exact isAvailable_lt hav
        · rw [if_neg hav]; exact h
      have ih := bookSeq_booked_le_total rs (bookStep pkg r)
        (fun x hx => hb x (List.mem_cons_of_mem r hx)) hstep
      rw [bookStep_totalSlots] at ih
      exact ih

/-- C3 counterexample: a package with one free slot accepts a booking for two
travelers and ends with bookedSlots = 2 above totalSlots = 1, breaking the
claimed invariant even though bookedSlots started at 0. -/
theorem C3_counterexample :
    pkgOneSlot.availability.bookedSlots = 0 ∧
    ¬((bookSeq pkgOneSlot [(0, ⟨2, 0, 0⟩)]).availability.bookedSlots ≤
      (bookSeq pkgOneSlot [(0, ⟨2, 0, 0⟩)]).availability.totalSlots) := by
  constructor
  · rfl
  · decide

/-- C3 amended: bookedSlots stays nonnegative, and because the availability
guard only checks bookedSlots < totalSlots before adding the whole traveler
count, the invariant that actually holds is
bookedSlots ≤ totalSlots - 1 + T for any bound T on per-request traveler
counts; the claimed bookedSlots ≤ totalSlots survives when every request
books exactly one traveler. -/
theorem C3_amended (pkg : Package) (reqs : List (UserId × Travelers)) (T : Nat)
    (hT : 1 ≤ T) (h0 : pkg.availability.bookedSlots = 0)
    (hb : ∀ r ∈ reqs, r.2.total ≤ T) :
    0 ≤ (bookSeq pkg reqs).availability.bookedSlots ∧
    (bookSeq pkg reqs).availability.bookedSlots ≤
      pkg.availability.totalSlots - 1 + T ∧
    ((∀ r ∈ reqs, r.2.total = 1) →
      (bookSeq pkg reqs).availability.bookedSlots ≤
        pkg.availability.totalSlots) := by
  refine ⟨Nat.zero_le _, ?_, fun h1 => ?_⟩
  · exact bookSeq_booked_bound T reqs pkg hb (by omega)
  · exact bookSeq_booked_le_total reqs pkg h1 (by omega)

/-- C3 amended witness: two bookings of two travelers each against a
three-slot package stay within totalSlots - 1 + 2 = 4. -/
theorem C3_amended_witness :
    (bookSeq pkgThree [(0, ⟨2, 0, 0⟩), (1, ⟨2, 0, 0⟩)]).availability.bookedSlots ≤
      pkgThree.availability.totalSlots - 1 + 2 :=
  (C3_amended pkgThree [(0, ⟨2, 0, 0⟩), (1, ⟨2, 0, 0⟩)] 2 (by decide) rfl
    (by decide)).2.1

/-- C9 counterexample: against a zero-priced package (basePrice minimum in the
schema is 0) a booking for two adults has calculateTotal equal to the stored
totalAmount, both 0, while its traveler count is 2 — so calculateTotal can
agree with totalAmount at a traveler count other than 1. -/
theorem C9_counterexample :
    createBooking 0 (some pkgZero) ⟨2, 0, 0⟩ 0 =
      .ok (bZero, pkgZero.updateAvailability 2) ∧
    bZero.calculateTotal = bZero.pricing.totalAmount ∧
    bZero.totalTravelers = 2 := by
  refine ⟨?_, ?_, rfl⟩
  · rw [createBooking_ok 0 pkgZero ⟨2, 0, 0⟩ 0 (by decide)]
    norm_num [bZero, pkgZero, Travelers.total, Package.updateAvailability]
  · norm_num [Booking.calculateTotal, Booking.totalTravelers, bZero]

/-- C9 amended: calculateTotal recomputes basePrice times travelers minus the
percentage discount plus stored taxes; on bookings made by create-booking it
equals the stored totalAmount whenever the traveler count is 1, and when the
package base price is positive it equals totalAmount only at traveler count 1
(a zero base price makes the two agree at every count). -/
theorem C9_calculateTotal (uid : UserId) (pkg : Package) (td : Travelers)
    (now : Int) (hav : pkg.isAvailable = true) (had : 1 ≤ td.adults) :
    ∃ b p2, createBooking uid (some pkg) td now = .ok (b, p2) ∧
      b.calculateTotal =
        b.pricing.basePrice * (b.totalTravelers : ℚ) -
          b.pricing.basePrice * (b.totalTravelers : ℚ) * b.pricing.discount / 100 +
          b.pricing.taxes ∧
      (b.totalTravelers = 1 → b.calculateTotal = b.pricing.totalAmount) ∧
      (0 < pkg.pricing.basePrice →
        (b.calculateTotal = b.pricing.totalAmount ↔ b.totalTravelers = 1)) := by
  rw [createBooking_ok uid pkg td now hav]
  refine ⟨_, _, rfl, ?_, ?_, ?_⟩
  · simp only [Booking.calculateTotal, Booking.totalTravelers]
  · intro hn
    have hsum : td.total = 1 := hn
    simp only [Booking.calculateTotal, Booking.totalTravelers, Travelers.total]
    simp only [Travelers.total] at hsum
    rw [hsum]
    push_cast
    ring
  · intro hpos
    have hge : 1 ≤ td.adults + td.children + td.infants := by omega
    have hx : (1 : ℚ) ≤ ((td.adults + td.children + td.infants : ℕ) : ℚ) := by
      exact_mod_cast hge
    simp only [Booking.calculateTotal, Booking.totalTravelers, Travelers.total]
    constructor
    · intro heq
      have h2 : pkg.pricing.basePrice *
            ((td.adults + td.children + td.infants : ℕ) : ℚ) *
            ((td.adults + td.children + td.infants : ℕ) : ℚ) =
          pkg.pricing.basePrice *
            ((td.adults + td.children + td.infants : ℕ) : ℚ) * 1 := by
        ring_nf at heq ⊢
        linarith
      have hBs : pkg.pricing.basePrice *
          ((td.adults + td.children + td.infants : ℕ) : ℚ) ≠ 0 :=
        ne_of_gt (mul_pos hpos (lt_of_lt_of_le one_pos hx))
      have hs1 : ((td.adults + td.children + td.infants : ℕ) : ℚ) = 1 :=
        mul_left_cancel₀ hBs h2
      exact_mod_cast hs1
    · intro hn
      rw [hn]
      push_cast
      ring

/-- C9 witness: one adult at base price 1000 gives calculateTotal 1180 equal
to the stored totalAmount. -/
theorem C9_witness :
    (createBooking 9 (some samplePkg) ⟨1, 0, 0⟩ 0).map
        (fun x => decide (x.1.calculateTotal = x.1.pricing.totalAmount)) =
      .ok true := by
  obtain ⟨b, p2, heq, hform, h1, hiff⟩ :=
    C9_calculateTotal 9 samplePkg ⟨1, 0, 0⟩ 0 (by decide) (by decide)
  have hval := createBooking_ok 9 samplePkg ⟨1, 0, 0⟩ 0 (by decide)
  rw [hval] at heq
  have hpair := Except.ok.inj heq
  have hbb : _ = b := congrArg Prod.fst hpair
  subst hbb
  have hmain := h1 (by rfl)
  rw [hval]
  simp only [Except.map, Except.ok.injEq, decide_eq_true_eq]
  exact hmain

/-- C6: register answers the duplicate-email error and writes nothing when a
user with the supplied email exists; otherwise it persists exactly one new
user whose stored password is the hash of the plaintext (hence never the
plaintext whenever hashing changes it), and answers a signed token together
with a projection record that carries only the non-password fields. -/
theorem C6_register (hash : String → String) (genToken : UserId → String)
    (users : List User) (newId : UserId)
    (firstName lastName email password phone : String) (role : Role) :
    ((∃ u ∈ users, u.email = email) →
      register hash genToken users newId firstName lastName email password
          phone role =
        (.error ⟨400, "User with this email already exists"⟩, users)) ∧
    ((∀ u ∈ users, u.email ≠ email) →
      register hash genToken users newId firstName lastName email password
          phone role =
        (.ok (⟨newId, firstName, lastName, email, role, phone⟩, genToken newId),
          users ++ [userCreate hash newId firstName lastName email password
            phone role]) ∧
      (userCreate hash newId firstName lastName email password phone
        role).password = hash password ∧
      (hash password ≠ password →
        (userCreate hash newId firstName lastName email password phone
          role).password ≠ password)) := by
  constructor
  · rintro ⟨u, hu, he⟩
    have hsome : (users.find? (fun v => decide (v.email = email))).isSome := by
      rw [List.find?_isSome]
      exact ⟨u, hu, by simpa using he⟩
    obtain ⟨v, hv⟩ := Option.isSome_iff_exists.mp hsome
    unfold register
    rw [hv]
  · intro hnone
    have hfind : users.find? (fun v => decide (v.email = email)) = none := by
      rw [List.find?_eq_none]
      intro u hu
      simpa using hnone u hu
    refine ⟨?_, rfl, fun hne => hne⟩
    unfold register
    rw [hfind]
    rfl

/-- C6 witness: registering against an empty user store creates exactly one
user whose stored password is the hash image of the plaintext. -/
theorem C6_witness :
    register (fun s => "H" ++ s) (fun _ => "tok") [] 0 "A" "B" "a@x.com" "pw"
        "9" .customer =
      (.ok (⟨0, "A", "B", "a@x.com", .customer, "9"⟩, "tok"),
        [userCreate (fun s => "H" ++ s) 0 "A" "B" "a@x.com" "pw" "9" .customer]) ∧
    (userCreate (fun s => "H" ++ s) 0 "A" "B" "a@x.com" "pw" "9"
      .customer).password = "Hpw" := by
  have h := (C6_register (fun s => "H" ++ s) (fun _ => "tok") [] 0 "A" "B"
    "a@x.com" "pw" "9" .customer).2 (by simp)
  exact ⟨h.1, rfl⟩

/-- C10: every booking in a page served by GET /api/bookings belongs to the
requester when the requester is a customer (customer field) or an agent
(agent field); only the admin branch leaves the query unscoped. -/
theorem C10_getBookings_scoped (db : List Booking) (role : Role) (uid : UserId)
    (status? : Option BookingStatus) (page limit : Nat) (b : Booking)
    (hb : b ∈ getBookings db role uid status? page limit) :
    (role = .customer → b.customer = uid) ∧
    (role = .agent → b.agent = some uid) := by
  have hmem : b ∈ db.filter (bookingMatches role uid status?) := by
    have h1 := List.mem_of_mem_take hb
    have h2 := List.mem_of_mem_drop h1
    exact (List.mem_mergeSort).mp h2
  have hmatch := (List.mem_filter.mp hmem).2
  constructor
  · rintro rfl
    simp only [bookingMatches, Bool.and_eq_true, decide_eq_true_eq] at hmatch
    exact hmatch.1
  · rintro rfl
    simp only [bookingMatches, Bool.and_eq_true, decide_eq_true_eq] at hmatch
    exact hmatch.1

/-- C10 witness: a customer listing a one-booking store sees only their own
booking. -/
theorem C10_witness :
    (Role.customer = Role.customer → sampleBooking.customer = 5) ∧
    (Role.customer = Role.agent → sampleBooking.agent = some 5) := by
  refine C10_getBookings_scoped [sampleBooking] .customer 5 none 1 10
    sampleBooking ?_
  simp [getBookings, bookingMatches, sampleBooking]

/-- Overwriting a vote in place never changes the user column. -/
theorem setFirstVote_map_user (uid : UserId) (h : Bool) :
    ∀ l : List HelpfulVote,
      (setFirstVote l uid h).map HelpfulVote.user = l.map HelpfulVote.user
  | [] => rfl
  | v :: vs => by
      by_cases hv : v.user = uid
      · simp [setFirstVote, hv]
      · simp [setFirstVote, hv, setFirstVote_map_user uid h vs]

/-- Overwriting a vote in place never changes the list length. -/
theorem setFirstVote_length (uid : UserId) (h : Bool) (l : List HelpfulVote) :
    (setFirstVote l uid h).length = l.length := by
  have := congrArg List.length (setFirstVote_map_user uid h l)
  simpa using this

/-- Overwriting the same value twice equals overwriting it once. -/
theorem setFirstVote_idem (uid : UserId) (h : Bool) :
    ∀ l : List HelpfulVote,
      setFirstVote (setFirstVote l uid h) uid h = setFirstVote l uid h
  | [] => rfl
  | v :: vs => by
      by_cases hv : v.user = uid
      · simp [setFirstVote, hv]
      · simp [setFirstVote, hv, setFirstVote_idem uid h vs]

/-- When the user already has a vote, the first matching vote after the
overwrite is exactly the new one. -/
theorem find?_setFirstVote (uid : UserId) (h : Bool) :
    ∀ l : List HelpfulVote,
      (l.find? (fun x => decide (x.user = uid))).isSome →
      (setFirstVote l uid h).find? (fun x => decide (x.user = uid)) =
        some ⟨uid, h⟩
  | [] => by intro hc; simp at hc
  | v :: vs => by
      by_cases hv : v.user = uid
      · intro _
        simp [setFirstVote, hv, List.find?_cons_of_pos]
      · intro hs
        have hvs : (vs.find? (fun x => decide (x.user = uid))).isSome := by
          rwa [List.find?_cons_of_neg _ (by simp [hv])] at hs
        simp [setFirstVote, hv, List.find?_cons_of_neg,
          find?_setFirstVote uid h vs hvs]

/-- Overwriting a vote of a user absent from the prefix touches only the
appended entry, which already carries the new value. -/
theorem setFirstVote_append (uid : UserId) (h : Bool) :
    ∀ l : List HelpfulVote, (∀ x ∈ l, x.user ≠ uid) →
      setFirstVote (l ++ [(⟨uid, h⟩ : HelpfulVote)]) uid h = l ++ [(⟨uid, h⟩ : HelpfulVote)]
  | [], _ => by simp [setFirstVote]
  | v :: vs, hl => by
      have hv : v.user ≠ uid := hl v (List.mem_cons_self v vs)
      simp [setFirstVote, hv,
        setFirstVote_append uid h vs (fun x hx => hl x (List.mem_cons_of_mem v hx))]

/-- find? skips a prefix on which it returns none. -/
theorem find?_append_none {α : Type} (p : α → Bool) :
    ∀ l1 l2 : List α, l1.find? p = none → (l1 ++ l2).find? p = l2.find? p
  | [], _, _ => rfl
  | a :: l1, l2, hnone => by
      cases hpa : p a with
      | true =>
          rw [List.find?_cons_of_pos _ hpa] at hnone
          exact Option.noConfusion hnone
      | false =>
          rw [List.find?_cons_of_neg _ (by simp [hpa])] at hnone
          rw [List.cons_append, List.find?_cons_of_neg _ (by simp [hpa])]
          exact find?_append_none p l1 l2 hnone

/-- addHelpfulVote when the user already voted: overwrite in place. -/
theorem addHelpfulVote_of_some (r : ReviewDoc) (uid : UserId) (h : Bool)
    (hf : (r.helpful.find? (fun x => decide (x.user = uid))).isSome) :
    r.addHelpfulVote uid h = { r with helpful := setFirstVote r.helpful uid h } := by
  obtain ⟨v, hv⟩ := Option.isSome_iff_exists.mp hf
  unfold ReviewDoc.addHelpfulVote
  rw [hv]

/-- addHelpfulVote when the user has no vote yet: push a new one. -/
theorem addHelpfulVote_of_none (r : ReviewDoc) (uid : UserId) (h : Bool)
    (hf : r.helpful.find? (fun x => decide (x.user = uid)) = none) :
    r.addHelpfulVote uid h = { r with helpful := r.helpful ++ [(⟨uid, h⟩ : HelpfulVote)] } := by
  unfold ReviewDoc.addHelpfulVote
  rw [hf]

/-- reportReview when the user already reported: no change at all. -/
theorem reportReview_of_some (r : ReviewDoc) (uid : UserId) (reason : String)
    (now : Int)
    (hf : (r.reported.find? (fun x => decide (x.user = uid))).isSome) :
    r.reportReview uid reason now = r := by
  obtain ⟨v, hv⟩ := Option.isSome_iff_exists.mp hf
  unfold ReviewDoc.reportReview
  rw [hv]

/-- reportReview when the user has not reported yet: push a new report. -/
theorem reportReview_of_none (r : ReviewDoc) (uid : UserId) (reason : String)
    (now : Int)
    (hf : r.reported.find? (fun x => decide (x.user = uid)) = none) :
    r.reportReview uid reason now =
      { r with reported := r.reported ++ [(⟨uid, reason, now⟩ : Report)] } := by
  unfold ReviewDoc.reportReview
  rw [hf]

/-- Voting never touches the reports list. -/
theorem addHelpfulVote_reported (r : ReviewDoc) (uid : UserId) (h : Bool) :
    (r.addHelpfulVote uid h).reported = r.reported := by
  cases hf : r.helpful.find? (fun x => decide (x.user = uid)) with
  | some v => rw [addHelpfulVote_of_some r uid h (by rw [hf]; rfl)]
  | none => rw [addHelpfulVote_of_none r uid h hf]

/-- Reporting never touches the votes list. -/
theorem reportReview_helpful (r : ReviewDoc) (uid : UserId) (reason : String)
    (now : Int) : (r.reportReview uid reason now).helpful = r.helpful := by
  cases hf : r.reported.find? (fun x => decide (x.user = uid)) with
  | some v => rw [reportReview_of_some r uid reason now (by rw [hf]; rfl)]
  | none => rw [reportReview_of_none r uid reason now hf]

/-- Voting keeps the one-entry-per-user shape of the votes list. -/
theorem addHelpfulVote_nodup (r : ReviewDoc) (uid : UserId) (h : Bool)
    (hn : (r.helpful.map HelpfulVote.user).Nodup) :
    ((r.addHelpfulVote uid h).helpful.map HelpfulVote.user).Nodup := by
  cases hf : r.helpful.find? (fun x => decide (x.user = uid)) with
  | some v =>
      rw [addHelpfulVote_of_some r uid h (by rw [hf]; rfl)]
      show ((setFirstVote r.helpful uid h).map HelpfulVote.user).Nodup
      rw [setFirstVote_map_user]
      exact hn
  | none =>
      rw [addHelpfulVote_of_none r uid h hf]
      show ((r.helpful ++ [(⟨uid, h⟩ : HelpfulVote)]).map HelpfulVote.user).Nodup
      have hmem : uid ∉ r.helpful.map HelpfulVote.user := by
        intro hmem
        obtain ⟨x, hx, hxu⟩ := List.mem_map.mp hmem
        have hfx := List.find?_eq_none.mp hf x hx
        simp [hxu] at hfx
      have hperm : List.Perm
          ((r.helpful ++ [(⟨uid, h⟩ : HelpfulVote)]).map HelpfulVote.user)
          (uid :: r.helpful.map HelpfulVote.user) := by
        rw [List.map_append]
        exact List.perm_append_singleton _ _
      exact hperm.nodup_iff.mpr (List.nodup_cons.mpr ⟨hmem, hn⟩)

/-- Reporting keeps the one-entry-per-user shape of the reports list. -/
theorem reportReview_nodup (r : ReviewDoc) (uid : UserId) (reason : String)
    (now : Int) (hr : (r.reported.map Report.user).Nodup) :
    ((r.reportReview uid reason now).reported.map Report.user).Nodup := by
  cases hf : r.reported.find? (fun x => decide (x.user = uid)) with
  | some v =>
      rw [reportReview_of_some r uid reason now (by rw [hf]; rfl)]
      exact hr
  | none =>
      rw [reportReview_of_none r uid reason now hf]
      show ((r.reported ++ [(⟨uid, reason, now⟩ : Report)]).map Report.user).Nodup
      have hmem : uid ∉ r.reported.map Report.user := by
        intro hmem
        obtain ⟨x, hx, hxu⟩ := List.mem_map.mp hmem
        have hfx := List.find?_eq_none.mp hf x hx
        simp [hxu] at hfx
      have hperm : List.Perm
          ((r.reported ++ [(⟨uid, reason, now⟩ : Report)]).map Report.user)
          (uid :: r.reported.map Report.user) := by
        rw [List.map_append]
        exact List.perm_append_singleton _ _
      exact hperm.nodup_iff.mpr (List.nodup_cons.mpr ⟨hmem, hr⟩)

/-- One vote-or-report call preserves both one-entry-per-user invariants. -/
theorem applyReviewOp_nodup (r : ReviewDoc) (op : ReviewOp)
    (hn : (r.helpful.map HelpfulVote.user).Nodup)
    (hr : (r.reported.map Report.user).Nodup) :
    ((applyReviewOp r op).helpful.map HelpfulVote.user).Nodup ∧
    ((applyReviewOp r op).reported.map Report.user).Nodup := by
  cases op with
  | vote uid h =>
      refine ⟨addHelpfulVote_nodup r uid h hn, ?_⟩
      show ((r.addHelpfulVote uid h).reported.map Report.user).Nodup
      rw [addHelpfulVote_reported]
      exact hr
  | report uid reason now =>
      refine ⟨?_, reportReview_nodup r uid reason now hr⟩
      show ((r.reportReview uid reason now).helpful.map HelpfulVote.user).Nodup
      rw [reportReview_helpful]
      exact hn

/-- Any sequence of vote-or-report calls preserves both invariants. -/
theorem runReviewOps_nodup :
    ∀ (ops : List ReviewOp) (r : ReviewDoc),
      (r.helpful.map HelpfulVote.user).Nodup →
      (r.reported.map Report.user).Nodup →
      ((runReviewOps r ops).helpful.map HelpfulVote.user).Nodup ∧
      ((runReviewOps r ops).reported.map Report.user).Nodup
  | [], _, hn, hr => ⟨hn, hr⟩
  | op :: ops, r, hn, hr => by
      have hstep := applyReviewOp_nodup r op hn hr
      exact runReviewOps_nodup ops (applyReviewOp r op) hstep.1 hstep.2

/-- Re-voting twice with the same value is the same as voting once. -/
theorem addHelpfulVote_idem (r : ReviewDoc) (uid : UserId) (h : Bool) :
    (r.addHelpfulVote uid h).addHelpfulVote uid h = r.addHelpfulVote uid h := by
  cases hf : r.helpful.find? (fun x => decide (x.user = uid)) with
  | some v =>
      rw [addHelpfulVote_of_some r uid h (by rw [hf]; rfl)]
      have hf2 : ((setFirstVote r.helpful uid h).find?
          (fun x => decide (x.user = uid))).isSome := by
        rw [find?_setFirstVote uid h r.helpful (by rw [hf]; rfl)]
        rfl
      rw [addHelpfulVote_of_some _ uid h hf2]
      show ({ r with helpful := setFirstVote (setFirstVote r.helpful uid h) uid h }
        : ReviewDoc) = _
      rw [setFirstVote_idem]
  | none =>
      rw [addHelpfulVote_of_none r uid h hf]
      have hfind2 : ((r.helpful ++ [(⟨uid, h⟩ : HelpfulVote)]).find?
          (fun x => decide (x.user = uid))) = some (⟨uid, h⟩ : HelpfulVote) := by
        rw [find?_append_none _ _ _ hf]
        simp [List.find?]
      rw [addHelpfulVote_of_some _ uid h (by rw [hfind2]; rfl)]
      show ({ r with
          helpful := setFirstVote (r.helpful ++ [(⟨uid, h⟩ : HelpfulVote)]) uid h }
        : ReviewDoc) = _
      rw [setFirstVote_append uid h r.helpful (fun x hx => by
        have hfx := List.find?_eq_none.mp hf x hx
        simpa using hfx)]

/-- C8: re-voting overwrites in place (same length, the stored vote becomes
the new value, same-value re-vote idempotent), a repeat report is ignored,
and any sequence of votes and reports keeps each user at most once in the
votes list and at most once in the reports list. -/
theorem C8_votes_reports (r : ReviewDoc) (uid : UserId) (h : Bool)
    (reason : String) (now : Int) (ops : List ReviewOp)
    (hn : (r.helpful.map HelpfulVote.user).Nodup)
    (hr : (r.reported.map Report.user).Nodup) :
    ((∃ v ∈ r.helpful, v.user = uid) →
      (r.addHelpfulVote uid h).helpful.length = r.helpful.length ∧
      (r.addHelpfulVote uid h).helpful.find? (fun x => decide (x.user = uid)) =
        some ⟨uid, h⟩) ∧
    ((r.addHelpfulVote uid h).addHelpfulVote uid h = r.addHelpfulVote uid h) ∧
    ((∃ x ∈ r.reported, x.user = uid) → r.reportReview uid reason now = r) ∧
    ((runReviewOps r ops).helpful.map HelpfulVote.user).Nodup ∧
    ((runReviewOps r ops).reported.map Report.user).Nodup := by
  refine ⟨?_, addHelpfulVote_idem r uid h, ?_, ?_, ?_⟩
  · rintro ⟨v, hv, hvu⟩
    have hsome : (r.helpful.find? (fun x => decide (x.user = uid))).isSome := by
      rw [List.find?_isSome]
      exact ⟨v, hv, by simpa using hvu⟩
    rw [addHelpfulVote_of_some r uid h hsome]
    exact ⟨setFirstVote_length uid h r.helpful,
      find?_setFirstVote uid h r.helpful hsome⟩
  · rintro ⟨x, hx, hxu⟩
    have hsome : (r.reported.find? (fun y => decide (y.user = uid))).isSome := by
      rw [List.find?_isSome]
      exact ⟨x, hx, by simpa using hxu⟩
    exact reportReview_of_some r uid reason now hsome
  · exact (runReviewOps_nodup ops r hn hr).1
  · exact (runReviewOps_nodup ops r hn hr).2

/-- C8 witness: on a review with a vote by user 1 and a report by user 2,
user 1 re-voting keeps the list length, and running a re-vote followed by a
repeat report leaves both user columns duplicate-free. -/
theorem C8_witness :
    (reviewSample.addHelpfulVote 1 false).helpful.length =
      reviewSample.helpful.length ∧
    ((runReviewOps reviewSample
        [ReviewOp.vote 1 false, ReviewOp.report 2 "x" 1]).helpful.map
      HelpfulVote.user).Nodup ∧
    ((runReviewOps reviewSample
        [ReviewOp.vote 1 false, ReviewOp.report 2 "x" 1]).reported.map
      Report.user).Nodup := by
  have h := C8_votes_reports reviewSample 1 false "x" 1
    [ReviewOp.vote 1 false, ReviewOp.report 2 "x" 1] (by decide) (by decide)
  exact ⟨(h.1 ⟨⟨1, true⟩, by simp [reviewSample], rfl⟩).1, h.2.2.2.1, h.2.2.2.2⟩

end PH
